import Mathlib

/-!
Verification development for the YiDimension IM gateway server (`server.js`).

The gateway's core is modelled here as a shallow embedding:
JS strings become `List Char` (`JStr`), the `ChatClient` session object
becomes an explicit record `ClientState` with its synchronous code sections
as state-transition functions, the per-connection WebSocket session becomes
`WsSession`, the promise-chained send queue becomes an explicit queue model,
and the heartbeat sweep becomes a function on the connection registry.
-/

/-- JS strings, modelled as lists of characters. -/
abbrev JStr := List Char

/-- The JS whitespace class used by `String.prototype.trim`. -/
def jsWhitespace : List Char :=
  [' ', '\t', '\n', '\r',
   Char.ofNat 0x0b, Char.ofNat 0x0c, Char.ofNat 0xa0, Char.ofNat 0x1680,
   Char.ofNat 0x2000, Char.ofNat 0x2001, Char.ofNat 0x2002, Char.ofNat 0x2003,
   Char.ofNat 0x2004, Char.ofNat 0x2005, Char.ofNat 0x2006, Char.ofNat 0x2007,
   Char.ofNat 0x2008, Char.ofNat 0x2009, Char.ofNat 0x200a, Char.ofNat 0x2028,
   Char.ofNat 0x2029, Char.ofNat 0x202f, Char.ofNat 0x205f, Char.ofNat 0x3000,
   Char.ofNat 0xfeff]

/-- Whether a character is JS whitespace. -/
def isWs (c : Char) : Bool := jsWhitespace.contains c

/-- JS `s.trim()`: strip leading and trailing whitespace. -/
def jsTrim (l : JStr) : JStr :=
  ((l.dropWhile isWs).reverse.dropWhile isWs).reverse

/-- The characters of the literal identity tag `"game_"` (server.js line 51). -/
def gameTag : JStr := ['g', 'a', 'm', 'e', '_']

/-- `normalizeUid` (server.js lines 44-52): convert any uid form to the plain
uid without the `game_` tag; `none` models the JS `null` result for a falsy
input or an all-whitespace input. -/
def normalizeUid (input : JStr) : Option JStr :=
  if input = [] then none
  else if jsTrim input = [] then none
  else if gameTag.isPrefixOf (jsTrim input) then some ((jsTrim input).drop 5)
  else some (jsTrim input)

/-- `toGameUid` (server.js lines 54-57): tag the normalized uid with `game_`;
`none` models `null` when the normalized uid is null or empty (falsy). -/
def toGameUid (input : JStr) : Option JStr :=
  match normalizeUid input with
  | none => none
  | some uid => if uid = [] then none else some (gameTag ++ uid)

/-- `normalizeUid` applied to a possibly-null JS value: `normalizeUid(null)`
returns `null` through the falsy-input guard. -/
def normalizeUidOpt (o : Option JStr) : Option JStr :=
  match o with
  | none => none
  | some s => normalizeUid s

/-- JS `Array.prototype.filter(Boolean)` over possibly-null strings: drops
`null`/`undefined` values and empty strings (both falsy). -/
def jsFilterTruthy (l : List (Option JStr)) : List JStr :=
  l.filterMap (fun o =>
    match o with
    | none => none
    | some s => if s = [] then none else some s)

/-- The candidate list after `filter(Boolean).map(normalizeUid).filter(Boolean)`
(server.js lines 560-562), before de-duplication, in the fixed precedence order
`[msg.targetId, GAME_CMD_TO, session.im.state.userId, session.uid]`. -/
def normalizedCandidates (targetId gameCmdTo imUserId sessUid : Option JStr) :
    List JStr :=
  jsFilterTruthy ((jsFilterTruthy [targetId, gameCmdTo, imUserId, sessUid]).map
    normalizeUid)

/-- JS `new Set(...)` insertion semantics: keep the first occurrence of each
element, drop later duplicates. -/
def firstDedupAux (seen : List JStr) : List JStr → List JStr
  | [] => []
  | x :: xs =>
    if x ∈ seen then firstDedupAux seen xs
    else x :: firstDedupAux (x :: seen) xs

/-- `Array.from(new Set(l))`: de-duplicate preserving first-occurrence order. -/
def firstDedup (l : List JStr) : List JStr := firstDedupAux [] l

/-- The recipient candidate list `targets` of the `sendCommand` handler
(server.js lines 554-562). -/
def buildTargets (targetId gameCmdTo imUserId sessUid : Option JStr) :
    List JStr :=
  firstDedup (normalizedCandidates targetId gameCmdTo imUserId sessUid)

/-- The ways `_doSendToC2C` can reject (server.js lines 301-319). -/
inductive SendErr where
  | notReady
  | noChat
  | emptyTarget
  | transportFail
deriving DecidableEq

/-- One entry of the `results` array built by the `sendCommand` dispatch loop
(server.js lines 592-603): the candidate tried and whether it was accepted. -/
structure Attempt where
  toUid : JStr
  ok : Bool
deriving DecidableEq

/-- `_doSendToC2C` (server.js lines 301-319): waits for readiness, checks the
chat handle and the target, then performs one transport send to the
normalized target.  `ensureOk` abstracts whether `ensureReady()` resolved;
`transport to` abstracts whether `chat.sendMessage` succeeds for recipient
`to`. -/
def doSendToC2C (ensureOk hasChat : Bool) (transport : Option JStr → Bool)
    (targetId : JStr) : Except SendErr Unit :=
  if ensureOk = false then Except.error SendErr.notReady
  else if hasChat = false then Except.error SendErr.noChat
  else if targetId = [] then Except.error SendErr.emptyTarget
  else if transport (normalizeUid targetId) then Except.ok ()
  else Except.error SendErr.transportFail

/-- `sendToC2C` (server.js lines 293-299): chains `_doSendToC2C` onto the send
queue and returns the queue promise, whose `.catch` handler logs any rejection
and recovers, so the value the caller awaits is the post-catch one. -/
def sendToC2C (ensureOk hasChat : Bool) (transport : Option JStr → Bool)
    (targetId : JStr) : Except SendErr Unit :=
  match doSendToC2C ensureOk hasChat transport targetId with
  | Except.ok u => Except.ok u
  | Except.error _ => Except.ok ()

/-- What the `sendCommand` dispatch loop awaits per candidate, paired with the
number of transport sends performed (`transportFail` means `chat.sendMessage`
was invoked and failed; the other errors occur before any transport call). -/
def dispatchSendCode (transport : Option JStr → Bool) (toUid : JStr) :
    Except SendErr Unit × Nat :=
  match doSendToC2C true true transport toUid with
  | Except.ok u => (Except.ok u, 1)
  | Except.error e =>
    (Except.ok (), if e = SendErr.transportFail then 1 else 0)

/-- The same per-candidate send with the `_doSendToC2C` rejection propagated to
the awaiting caller (no swallowing), paired with the transport-send count. -/
def dispatchSendRaw (transport : Option JStr → Bool) (toUid : JStr) :
    Except SendErr Unit × Nat :=
  match doSendToC2C true true transport toUid with
  | Except.ok u => (Except.ok u, 1)
  | Except.error e =>
    (Except.error e, if e = SendErr.transportFail then 1 else 0)

/-- The `for (const to of targets)` loop of the `sendCommand` handler
(server.js lines 592-603): try candidates in order, record an `Attempt` per
candidate tried, stop at the first awaited success.  Returns the attempt
records, the successful recipient (the loop's `okTo`), and the total number
of transport sends. -/
def dispatchLoop (send : JStr → Except SendErr Unit × Nat) :
    List JStr → List Attempt × Option JStr × Nat
  | [] => ([], none, 0)
  | toUid :: rest =>
    match send toUid with
    | (Except.ok _, k) => ([⟨toUid, true⟩], some toUid, k)
    | (Except.error _, k) =>
      let r := dispatchLoop send rest
      (⟨toUid, false⟩ :: r.1, r.2.1, k + r.2.2)

/-- The per-connection WebSocket session record (server.js lines 679-710),
restricted to the fields the `sendCommand` handler reads. -/
structure WsSession where
  isReady : Bool
  uid : Option JStr
  token : Option JStr
  imUserId : Option JStr
deriving DecidableEq

/-- The reply sent back for one `sendCommand` message. -/
inductive CmdReply where
  | notReady
  | noPayload
  | sendSuccess (toUid : JStr) (tried : List Attempt)
  | sendFailed (tried : List Attempt)
deriving DecidableEq

/-- The `case 'sendCommand'` branch of `handleWsMessage` (server.js lines
525-617): readiness guard, payload guard, candidate assembly, dispatch loop.
Returns the reply and the number of transport sends performed. -/
def handleSendCommand (w : WsSession) (targetId gameCmdTo : Option JStr)
    (payloadPresent : Bool) (transport : Option JStr → Bool) :
    CmdReply × Nat :=
  if w.isReady = false then (CmdReply.notReady, 0)
  else if payloadPresent = false then (CmdReply.noPayload, 0)
  else
    let targets := buildTargets targetId gameCmdTo w.imUserId w.uid
    let r := dispatchLoop (dispatchSendCode transport) targets
    match r.2.1 with
    | some okTo => (CmdReply.sendSuccess okTo r.1, r.2.2)
    | none => (CmdReply.sendFailed r.1, r.2.2)

/-- The `ChatClient` instance state (server.js lines 132-143), extended with
operation counters (`initStarts`, `signCalls`, `loginCalls`, `releasedChats`)
so that theorems can count initializations, `game_sign` credential fetches,
transport logins and released transport handles.  `initPromise` holds the id
of the cached in-flight (or settled) `_initIM` promise, `none` for `null`. -/
structure ClientState where
  destroyed : Bool
  isReady : Bool
  initialized : Bool
  hasChat : Bool
  currentUid : Option JStr
  currentToken : Option JStr
  stUid : Option JStr
  stToken : Option JStr
  initPromise : Option Nat
  nextInit : Nat
  initStarts : Nat
  signCalls : Nat
  loginCalls : Nat
  releasedChats : Nat
  queuePending : Nat
deriving DecidableEq

/-- A freshly constructed `ChatClient` (server.js lines 133-143). -/
def freshClient : ClientState :=
  { destroyed := false, isReady := false, initialized := false
    hasChat := false, currentUid := none, currentToken := none
    stUid := none, stToken := none, initPromise := none
    nextInit := 0, initStarts := 0, signCalls := 0, loginCalls := 0
    releasedChats := 0, queuePending := 0 }

/-- The synchronous section of `ensureReady` (server.js lines 151-156): clear
the destroyed flag, return if ready, otherwise cache `_initIM()` if no
initialization is cached yet.  Returns the new state and the id of the init
promise this call awaits (`none` when it returned early because ready).
There is no suspension point between the `initPromise` check and its
assignment, so this section is atomic under cooperative scheduling. -/
def ensureReadySync (s : ClientState) : ClientState × Option Nat :=
  let s1 := { s with destroyed := false }
  if s1.isReady && s1.initialized && s1.hasChat then (s1, none)
  else
    match s1.initPromise with
    | some k => (s1, some k)
    | none =>
      ({ s1 with initPromise := some s1.nextInit
               , nextInit := s1.nextInit + 1
               , initStarts := s1.initStarts + 1 }, some s1.nextInit)

/-- `m` consecutive `ensureReady()` calls reaching their synchronous sections
before any of them resumes: the resulting state and the list of init-promise
ids awaited by the calls in order. -/
def ensureReadyCalls : Nat → ClientState → ClientState × List (Option Nat)
  | 0, s => (s, [])
  | m + 1, s =>
    let r := ensureReadySync s
    let t := ensureReadyCalls m r.1
    (t.1, r.2 :: t.2)

/-- One complete run of `_initIM` (server.js lines 178-211): one `game_sign`
credential fetch (`signOk` = whether it succeeds); on success, create the
transport handle and perform one transport login, then wait for the ready
signal (`readyOk` = whether it arrives before the timeout).  On either
failure the promise rejects with no further state change — in particular
`initPromise` is not cleared. -/
def runInitIM (s : ClientState) (signOk readyOk : Bool) : ClientState :=
  let s1 := { s with signCalls := s.signCalls + 1 }
  if signOk = false then s1
  else
    let s2 := { s1 with hasChat := true, loginCalls := s1.loginCalls + 1 }
    if readyOk = false then s2
    else { s2 with initialized := true, isReady := true }

/-- `destroy` (server.js lines 321-337): no-op when there is no chat handle;
otherwise log out, release the handle, reset all lifecycle fields, clear the
send queue, and set the destroyed flag unless `keepDestroyedFlag`. -/
def destroyStep (s : ClientState) (keepDestroyedFlag : Bool) : ClientState :=
  if s.hasChat = false then s
  else
    { s with hasChat := false
           , releasedChats := s.releasedChats + 1
           , initialized := false
           , isReady := false
           , initPromise := none
           , queuePending := 0
           , destroyed := !keepDestroyedFlag }

/-- Cache a fresh `_initIM()` call as the new `initPromise`
(`this.initPromise = this._initIM(timeout)`). -/
def startInit (s : ClientState) : ClientState :=
  { s with initPromise := some s.nextInit
         , nextInit := s.nextInit + 1
         , initStarts := s.initStarts + 1 }

/-- The synchronous decision part of `loginWith` (server.js lines 158-176):
store the normalized credentials, throw (`none`) on empty uid/token, return
unchanged if already initialized, ready and holding a chat handle with the
same credentials; otherwise destroy the current session (keeping the
destroyed flag clear), record the new credentials and cache a fresh
`_initIM()`. -/
def loginWithStep (s : ClientState) (uid token : JStr) : Option ClientState :=
  match normalizeUid uid with
  | none => none
  | some u =>
    if u = [] then none
    else if token = [] then none
    else
      let s1 := { s with stUid := some u, stToken := some token }
      if s1.initialized = true ∧ s1.isReady = true ∧ s1.hasChat = true ∧
         s1.stUid = s1.currentUid ∧ s1.stToken = s1.currentToken then
        some s1
      else
        let s2 := destroyStep s1 true
        let s3 := { s2 with currentUid := some u, currentToken := some token }
        some (startInit s3)

/-- The `KICKED_OUT` handler bound by `_bindIMEvents` (server.js lines
229-232): mark the client not ready and emit the event; nothing else changes
— the chat handle is kept and `destroy` is not called. -/
def kickedOutStep (s : ClientState) : ClientState := { s with isReady := false }

/-- The WS connection's `imEvent` listener on `KICKED_OUT` (server.js lines
696-703): mark the WS session not ready. -/
def wsKickedOut (w : WsSession) : WsSession := { w with isReady := false }

/-- The settlement state of the promise at the tail of `sendQueue`. -/
inductive QueueState where
  | fulfilled
  | rejected
deriving DecidableEq

/-- Chaining one send onto the queue (server.js lines 295-298):
`this.sendQueue = this.sendQueue.then(task).catch(log)`.  The task runs only
if the prior tail fulfilled; the `.catch` turns any rejection into a
fulfilled promise, and that post-catch promise is what the caller awaits.
Returns (new tail state, whether the task executed, the caller's value). -/
def enqueueStep (q : QueueState) (taskResult : Except SendErr Unit) :
    QueueState × Bool × Except SendErr Unit :=
  match q with
  | QueueState.rejected => (QueueState.fulfilled, false, Except.ok ())
  | QueueState.fulfilled =>
    match taskResult with
    | Except.ok u => (QueueState.fulfilled, true, Except.ok u)
    | Except.error _ => (QueueState.fulfilled, true, Except.ok ())

/-- Run a list of queued sends (given each task's own `_doSendToC2C` outcome)
through the promise chain: final tail state, number of tasks that actually
executed, and the values the respective callers receive. -/
def runQueue (q : QueueState) :
    List (Except SendErr Unit) → QueueState × Nat × List (Except SendErr Unit)
  | [] => (q, 0, [])
  | r :: rs =>
    let e := enqueueStep q r
    let t := runQueue e.1 rs
    (t.1, (if e.2.1 then 1 else 0) + t.2.1, e.2.2 :: t.2.2)

/-- One tracked WebSocket connection as the heartbeat sweep sees it:
its id, its `isAlive` flag, and whether it answers pings (environment). -/
structure Conn where
  cid : Nat
  isAlive : Bool
  responsive : Bool
deriving DecidableEq

/-- One heartbeat sweep (server.js lines 740-752): terminate and deregister
every connection whose `isAlive` flag is still false from the previous round,
otherwise clear the flag and ping it.  Returns the surviving registry and the
ids of the terminated connections. -/
def sweep : List Conn → List Conn × List Nat
  | [] => ([], [])
  | c :: rest =>
    if c.isAlive = false then ((sweep rest).1, c.cid :: (sweep rest).2)
    else ({ c with isAlive := false } :: (sweep rest).1, (sweep rest).2)

/-- The pongs arriving between sweeps (server.js line 714): every responsive
connection's `pong` handler sets `isAlive` back to true. -/
def pongPhase (l : List Conn) : List Conn :=
  l.map (fun c => if c.responsive then { c with isAlive := true } else c)

/-- One heartbeat interval: the sweep, then the pongs that arrive before the
next sweep.  Returns the registry at the next sweep and the terminated ids. -/
def tick (l : List Conn) : List Conn × List Nat :=
  let r := sweep l
  (pongPhase r.1, r.2)

/-- A transport in which only the recipient `C` accepts delivery. -/
def onlyCTransport : Option JStr → Bool := fun o => o == some ['C']

/-- A transport that refuses every delivery. -/
def failTransport : Option JStr → Bool := fun _ => false

/-- The client after `ensureReady()` started initialization attempt 0 and that
attempt failed its `game_sign` credential fetch. -/
def failedInitClient : ClientState :=
  runInitIM
    (ensureReadySync
      { freshClient with stUid := some ['3'], stToken := some ['t'] }).1
    false false

/-- A client whose login and initialization (attempt 0) completed
successfully. -/
def readyClient : ClientState :=
  runInitIM
    (ensureReadySync
      { freshClient with
          stUid := some ['3'], stToken := some ['t'],
          currentUid := some ['3'], currentToken := some ['t'] }).1
    true true

/-- The client produced by `loginWith('3','t')` on a fresh client. -/
def lwClient : ClientState := (loginWithStep freshClient ['3'] ['t']).getD freshClient

/-- A WS session before any login. -/
def newWsSession : WsSession :=
  { isReady := false, uid := none, token := none, imUserId := none }

/-- A tracked connection that is alive at the current sweep but answers no
pings. -/
def deadConn : Conn := { cid := 1, isAlive := true, responsive := false }

/-- The head surviving `dropWhile p` does not satisfy `p`. -/
theorem head?_dropWhile_false {α : Type} (p : α → Bool) (l : List α) (c : α)
    (h : (l.dropWhile p).head? = some c) : p c = false := by
  induction l with
  | nil => simp [List.dropWhile] at h
  | cons a t ih =>
    rw [List.dropWhile_cons] at h
    by_cases hp : p a
    · rw [if_pos hp] at h
      exact ih h
    · rw [if_neg hp] at h
      simp only [List.head?_cons, Option.some.injEq] at h
      subst h
      exact Bool.eq_false_iff.mpr hp

/-- A list whose first and last characters are not whitespace is unchanged by
`jsTrim`. -/
theorem jsTrim_eq_self (l : JStr) (c₁ c₂ : Char)
    (h1 : l.head? = some c₁) (h2 : isWs c₁ = false)
    (h3 : l.getLast? = some c₂) (h4 : isWs c₂ = false) :
    jsTrim l = l := by
  have hdw : l.dropWhile isWs = l := by
    cases l with
    | nil => rfl
    | cons a t =>
      simp only [List.head?_cons, Option.some.injEq] at h1
      rw [List.dropWhile_cons, if_neg (by rw [h1, h2]; simp)]
  have hdw2 : l.reverse.dropWhile isWs = l.reverse := by
    cases hrev : l.reverse with
    | nil => rfl
    | cons b t₂ =>
      have hb : b = c₂ := by
        have hh := List.head?_reverse l
        rw [hrev, h3] at hh
        simpa using hh
      rw [List.dropWhile_cons, if_neg (by rw [hb, h4]; simp)]
  unfold jsTrim
  rw [hdw, hdw2, List.reverse_reverse]

/-- The last character of a trimmed string is not whitespace. -/
theorem jsTrim_getLast_not_ws (l : JStr) (c : Char)
    (h : (jsTrim l).getLast? = some c) : isWs c = false := by
  unfold jsTrim at h
  rw [List.getLast?_reverse] at h
  exact head?_dropWhile_false _ _ _ h

/-- `List.isPrefixOf` in terms of list append. -/
theorem isPrefixOf_true_iff (l₁ l₂ : List Char) :
    l₁.isPrefixOf l₂ = true ↔ ∃ t, l₁ ++ t = l₂ := by
  induction l₁ generalizing l₂ with
  | nil => simp [List.isPrefixOf]
  | cons a as ih =>
    cases l₂ with
    | nil => simp [List.isPrefixOf]
    | cons b bs =>
      simp only [List.isPrefixOf, Bool.and_eq_true, beq_iff_eq, ih,
        List.cons_append, List.cons.injEq]
      constructor
      · rintro ⟨rfl, t, rfl⟩
        exact ⟨t, rfl, rfl⟩
      · rintro ⟨t, rfl, rfl⟩
        exact ⟨rfl, t, rfl⟩

/-- The uid produced by `normalizeUid` never ends in whitespace. -/
theorem normalizeUid_getLast_not_ws (s u : JStr) (c : Char)
    (h : normalizeUid s = some u) (hc : u.getLast? = some c) :
    isWs c = false := by
  by_cases h0 : s = []
  · simp [normalizeUid, h0] at h
  by_cases h1 : jsTrim s = []
  · simp [normalizeUid, h0, h1] at h
  by_cases h2 : gameTag.isPrefixOf (jsTrim s) = true
  · rw [normalizeUid, if_neg h0, if_neg h1, if_pos h2] at h
    simp only [Option.some.injEq] at h
    subst h
    obtain ⟨t, ht⟩ := (isPrefixOf_true_iff _ _).mp h2
    have hdrop : (jsTrim s).drop 5 = t := by
      rw [← ht]
      exact List.drop_left gameTag t
    rw [hdrop] at hc
    have htne : t ≠ [] := by
      rintro rfl
      simp at hc
    apply jsTrim_getLast_not_ws s c
    rw [← ht, List.getLast?_append_of_ne_nil _ htne]
    exact hc
  · rw [normalizeUid, if_neg h0, if_neg h1, if_neg h2] at h
    simp only [Option.some.injEq] at h
    subst h
    exact jsTrim_getLast_not_ws s c hc

/-- Normalizing `game_` followed by a nonempty uid with no trailing
whitespace strips exactly that tag. -/
theorem normalizeUid_gameTag_append (u : JStr) (hne : u ≠ [])
    (hlast : ∀ c, u.getLast? = some c → isWs c = false) :
    normalizeUid (gameTag ++ u) = some u := by
  obtain ⟨c, hc⟩ : ∃ c, u.getLast? = some c := by
    cases hu : u.getLast? with
    | none => exact absurd (List.getLast?_eq_none_iff.mp hu) hne
    | some c => exact ⟨c, rfl⟩
  have htrim : jsTrim (gameTag ++ u) = gameTag ++ u := by
    apply jsTrim_eq_self _ 'g' c
    · rfl
    · decide
    · rw [List.getLast?_append_of_ne_nil _ hne]
      exact hc
    · exact hlast c hc
  have hg : gameTag ++ u ≠ [] := by simp [gameTag]
  have hpre : gameTag.isPrefixOf (jsTrim (gameTag ++ u)) = true := by
    rw [htrim]
    exact (isPrefixOf_true_iff _ _).mpr ⟨u, rfl⟩
  rw [normalizeUid, if_neg hg, if_neg (by rw [htrim]; exact hg), if_pos hpre,
    htrim]
  simp only [Option.some.injEq]
  exact List.drop_left gameTag u

/-- **C10** counterexample: normalization is not idempotent — normalizing
`"game_game_x"` gives `"game_x"`, and normalizing that again gives `"x"`;
and `normalizeUid(toGameUid(s))` differs from `normalizeUid(s)` at
`s = "game_"`, where `toGameUid` is null but `normalizeUid` is the (falsy
yet non-null) empty string. -/
theorem normalizeUid_idempotent_cex :
    normalizeUidOpt (normalizeUid "game_game_x".data) ≠
      normalizeUid "game_game_x".data ∧
    normalizeUidOpt (toGameUid "game_".data) ≠ normalizeUid "game_".data := by
  decide

/-- **C10** (amended): normalization is idempotent on every uid whose
normalized form neither starts with the `game_` tag nor starts with
whitespace; whenever `toGameUid(s)` is non-null, normalizing it agrees with
normalizing `s`; and a non-null `toGameUid(s)` is exactly `game_` followed
by the normalized uid of `s`. -/
theorem normalizeUid_algebra (s u s₂ g₂ : JStr) (c : Char)
    (h1 : normalizeUid s = some u) (h2 : u.head? = some c)
    (h3 : isWs c = false) (h4 : gameTag.isPrefixOf u = false)
    (h5 : toGameUid s₂ = some g₂) :
    normalizeUid u = some u ∧
    normalizeUid g₂ = normalizeUid s₂ ∧
    ∃ u₂, normalizeUid s₂ = some u₂ ∧ g₂ = gameTag ++ u₂ := by
  have hune : u ≠ [] := by
    rintro rfl
    simp at h2
  obtain ⟨c₂, hc₂⟩ : ∃ c₂, u.getLast? = some c₂ := by
    cases hu : u.getLast? with
    | none => exact absurd (List.getLast?_eq_none_iff.mp hu) hune
    | some c₂ => exact ⟨c₂, rfl⟩
  have hlast : isWs c₂ = false := normalizeUid_getLast_not_ws s u c₂ h1 hc₂
  have htrim : jsTrim u = u := jsTrim_eq_self u c c₂ h2 h3 hc₂ hlast
  refine ⟨?_, ?_⟩
  · rw [normalizeUid, if_neg hune, if_neg (by rw [htrim]; exact hune), htrim,
      if_neg (by rw [h4]; simp)]
  · cases hn : normalizeUid s₂ with
    | none =>
      rw [toGameUid, hn] at h5
      exact absurd h5 (by simp)
    | some u₂ =>
      rw [toGameUid, hn] at h5
      dsimp only at h5
      by_cases hz : u₂ = []
      · rw [if_pos hz] at h5
        exact absurd h5 (by simp)
      · rw [if_neg hz] at h5
        simp only [Option.some.injEq] at h5
        subst h5
        have hlast₂ : ∀ d, u₂.getLast? = some d → isWs d = false :=
          fun d hd => normalizeUid_getLast_not_ws s₂ u₂ d hn hd
        exact ⟨by rw [normalizeUid_gameTag_append u₂ hz hlast₂],
          u₂, rfl, rfl⟩

/-- **C10** witness: the amended properties instantiated at `"abc"` and
`"30033"`. -/
theorem normalizeUid_algebra_witness :
    normalizeUid "abc".data = some "abc".data ∧
    ("abc".data : JStr).head? = some 'a' ∧
    isWs 'a' = false ∧
    gameTag.isPrefixOf "abc".data = false ∧
    toGameUid "30033".data = some "game_30033".data ∧
    (normalizeUid "abc".data = some "abc".data ∧
     normalizeUid "game_30033".data = normalizeUid "30033".data ∧
     ∃ u₂, normalizeUid "30033".data = some u₂ ∧
       "game_30033".data = gameTag ++ u₂) :=
  ⟨by decide, by decide, by decide, by decide, by decide,
   normalizeUid_algebra "abc".data "abc".data "30033".data "game_30033".data
     'a' (by decide) (by decide) (by decide) (by decide) (by decide)⟩

/-- Membership in the insertion-ordered de-duplication. -/
theorem mem_firstDedupAux (seen l : List JStr) (x : JStr) :
    x ∈ firstDedupAux seen l ↔ x ∈ l ∧ x ∉ seen := by
  induction l generalizing seen with
  | nil => simp [firstDedupAux]
  | cons a t ih =>
    by_cases ha : a ∈ seen
    · rw [firstDedupAux, if_pos ha, ih]
      constructor
      · rintro ⟨hx, hs⟩
        exact ⟨List.mem_cons_of_mem a hx, hs⟩
      · rintro ⟨hx, hs⟩
        rcases List.mem_cons.mp hx with rfl | hx
        · exact absurd ha hs
        · exact ⟨hx, hs⟩
    · rw [firstDedupAux, if_neg ha]
      simp only [List.mem_cons, ih, List.mem_cons]
      constructor
      · rintro (rfl | ⟨hx, hs⟩)
        · exact ⟨Or.inl rfl, ha⟩
        · exact ⟨Or.inr hx, fun hxs => hs (Or.inr hxs)⟩
      · rintro ⟨rfl | hx, hs⟩
        · exact Or.inl rfl
        · by_cases hxa : x = a
          · exact Or.inl hxa
          · exact Or.inr ⟨hx, fun hxs => hxs.elim hxa hs⟩

/-- The insertion-ordered de-duplication is a sublist of its input. -/
theorem firstDedupAux_sublist (seen l : List JStr) :
    (firstDedupAux seen l).Sublist l := by
  induction l generalizing seen with
  | nil => exact List.Sublist.refl []
  | cons a t ih =>
    by_cases ha : a ∈ seen
    · rw [firstDedupAux, if_pos ha]
      exact List.Sublist.cons a (ih seen)
    · rw [firstDedupAux, if_neg ha]
      exact List.Sublist.cons₂ a (ih (a :: seen))

/-- The insertion-ordered de-duplication has no duplicates. -/
theorem nodup_firstDedupAux (seen l : List JStr) :
    (firstDedupAux seen l).Nodup := by
  induction l generalizing seen with
  | nil => exact List.nodup_nil
  | cons a t ih =>
    by_cases ha : a ∈ seen
    · rw [firstDedupAux, if_pos ha]
      exact ih seen
    · rw [firstDedupAux, if_neg ha]
      refine List.nodup_cons.mpr ⟨fun hmem => ?_, ih (a :: seen)⟩
      exact ((mem_firstDedupAux _ _ _).mp hmem).2 (List.mem_cons_self a seen)

/-- Every element of the truthy filter comes from a present, nonempty
entry. -/
theorem mem_jsFilterTruthy (l : List (Option JStr)) (x : JStr) :
    x ∈ jsFilterTruthy l ↔ some x ∈ l ∧ x ≠ [] := by
  unfold jsFilterTruthy
  rw [List.mem_filterMap]
  constructor
  · rintro ⟨o, ho, hfo⟩
    cases o with
    | none => simp at hfo
    | some s =>
      by_cases hs : s = []
      · simp [hs] at hfo
      · dsimp only at hfo
        rw [if_neg hs] at hfo
        simp only [Option.some.injEq] at hfo
        subst hfo
        exact ⟨ho, hs⟩
  · rintro ⟨ho, hx⟩
    exact ⟨some x, ho, by dsimp only; rw [if_neg hx]⟩

/-- **C9**: the `sendCommand` recipient candidate list is built from the four
sources in the fixed precedence order (explicit override, `GAME_CMD_TO`, the
session's resolved IM identity, the caller-supplied identity): it is the
normalized, falsy-filtered source list with duplicates removed — no
duplicates remain, relative (hence precedence) order is preserved, the
highest-precedence surviving candidate stays first, and every entry is the
nonempty normalization of one of the four sources. -/
theorem candidate_assembly (t g i s : Option JStr) :
    (buildTargets t g i s).Nodup ∧
    (buildTargets t g i s).Sublist (normalizedCandidates t g i s) ∧
    (∀ x, x ∈ buildTargets t g i s ↔ x ∈ normalizedCandidates t g i s) ∧
    (buildTargets t g i s).head? = (normalizedCandidates t g i s).head? ∧
    (∀ x ∈ buildTargets t g i s,
      x ≠ [] ∧ ∃ src, some src ∈ [t, g, i, s] ∧ normalizeUid src = some x) := by
  refine ⟨nodup_firstDedupAux [] _, firstDedupAux_sublist [] _, ?_, ?_, ?_⟩
  · intro x
    rw [buildTargets, firstDedup, mem_firstDedupAux]
    simp
  · rw [buildTargets, firstDedup]
    cases normalizedCandidates t g i s with
    | nil => rfl
    | cons a l => rw [firstDedupAux, if_neg (List.not_mem_nil a)]; rfl
  · intro x hx
    have hxn : x ∈ normalizedCandidates t g i s := by
      rw [buildTargets, firstDedup, mem_firstDedupAux] at hx
      exact hx.1
    rw [normalizedCandidates, mem_jsFilterTruthy] at hxn
    obtain ⟨hmap, hxne⟩ := hxn
    rw [List.mem_map] at hmap
    obtain ⟨src, hsrc, hns⟩ := hmap
    rw [mem_jsFilterTruthy] at hsrc
    exact ⟨hxne, src, hsrc.1, hns⟩

/-- **C9** witness: the assembly properties instantiated at an explicit
override `game_50141`, no configured fallback, IM identity `game_30033` and
caller identity `30033`; the resulting list is `[50141, 30033]`. -/
theorem candidate_assembly_witness :
    buildTargets (some "game_50141".data) none (some "game_30033".data)
        (some "30033".data) = ["50141".data, "30033".data] ∧
    (buildTargets (some "game_50141".data) none (some "game_30033".data)
        (some "30033".data)).Nodup :=
  ⟨by decide,
   (candidate_assembly (some "game_50141".data) none (some "game_30033".data)
     (some "30033".data)).1⟩

/-- While an initialization is cached and the client is not ready, every
`ensureReady()` synchronous section leaves the lifecycle untouched and awaits
the same cached promise. -/
theorem ensureReadyCalls_inflight (m : Nat) (s : ClientState) (k : Nat)
    (h1 : s.isReady = false) (h2 : s.initPromise = some k) :
    (ensureReadyCalls m s).1.initStarts = s.initStarts ∧
    (ensureReadyCalls m s).1.isReady = false ∧
    (ensureReadyCalls m s).1.initPromise = some k ∧
    ∀ a ∈ (ensureReadyCalls m s).2, a = some k := by
  induction m generalizing s with
  | zero => exact ⟨rfl, h1, h2, by simp [ensureReadyCalls]⟩
  | succ m ih =>
    have hsync : ensureReadySync s = ({ s with destroyed := false }, some k) := by
      rw [ensureReadySync]
      simp [h1, h2]
    have ih' := ih { s with destroyed := false } h1 h2
    rw [ensureReadyCalls, hsync]
    refine ⟨ih'.1, ih'.2.1, ih'.2.2.1, ?_⟩
    intro a ha
    simp only [List.mem_cons] at ha
    rcases ha with rfl | ha
    · rfl
    · exact ih'.2.2.2 a ha

/-- **C2**: any number of `ensureReady()` calls reaching their synchronous
sections before the session becomes ready start exactly one `_initIM`
(the later calls all await the same cached in-flight initialization), and
one `_initIM` run performs exactly one `game_sign` credential fetch and,
when the fetch succeeds, exactly one transport login. -/
theorem ensureReady_single_init (n : Nat) (s c : ClientState) (ro : Bool)
    (h1 : s.isReady = false) (h2 : s.initPromise = none) :
    (ensureReadyCalls (n + 1) s).1.initStarts = s.initStarts + 1 ∧
    (∀ a ∈ (ensureReadyCalls (n + 1) s).2, a = some s.nextInit) ∧
    (runInitIM c true ro).signCalls = c.signCalls + 1 ∧
    (runInitIM c true ro).loginCalls = c.loginCalls + 1 := by
  have hsync : ensureReadySync s =
      ({ s with destroyed := false, initPromise := some s.nextInit,
                nextInit := s.nextInit + 1, initStarts := s.initStarts + 1 },
       some s.nextInit) := by
    rw [ensureReadySync]
    simp [h1, h2]
  have hrest := ensureReadyCalls_inflight n
    { s with destroyed := false, initPromise := some s.nextInit,
             nextInit := s.nextInit + 1, initStarts := s.initStarts + 1 }
    s.nextInit h1 rfl
  refine ⟨?_, ?_, ?_, ?_⟩
  · rw [ensureReadyCalls, hsync]
    exact hrest.1
  · intro a ha
    rw [ensureReadyCalls, hsync] at ha
    simp only [List.mem_cons] at ha
    rcases ha with rfl | ha
    · rfl
    · exact hrest.2.2.2 a ha
  · cases ro <;> simp [runInitIM]
  · cases ro <;> simp [runInitIM]

/-- **C2** witness: three concurrent `ensureReady()` calls on a fresh client
start exactly one initialization. -/
theorem ensureReady_single_init_witness :
    freshClient.isReady = false ∧ freshClient.initPromise = none ∧
    ((ensureReadyCalls 3 freshClient).1.initStarts =
        freshClient.initStarts + 1 ∧
     (∀ a ∈ (ensureReadyCalls 3 freshClient).2, a = some freshClient.nextInit) ∧
     (runInitIM freshClient true true).signCalls =
        freshClient.signCalls + 1 ∧
     (runInitIM freshClient true true).loginCalls =
        freshClient.loginCalls + 1) :=
  ⟨rfl, rfl, ensureReady_single_init 2 freshClient freshClient true rfl rfl⟩

/-- `destroy` keeps the initialization counters, always leaves no chat
handle, and releases the handle and clears the queue exactly when one was
held. -/
theorem destroyStep_fields (s : ClientState) (kf : Bool) :
    (destroyStep s kf).initStarts = s.initStarts ∧
    (destroyStep s kf).nextInit = s.nextInit ∧
    (destroyStep s kf).hasChat = false ∧
    (destroyStep s kf).releasedChats =
      s.releasedChats + (if s.hasChat then 1 else 0) ∧
    (destroyStep s kf).queuePending =
      (if s.hasChat then 0 else s.queuePending) := by
  by_cases h : s.hasChat = false
  · simp [destroyStep, h]
  · rw [Bool.not_eq_false] at h
    simp [destroyStep, h]

/-- **C3** counterexample: on a client whose only initialization attempt
(id 0) failed its credential fetch, a later `ensureReady()` does not start a
fresh attempt — it awaits the same cached failed promise 0 and the number of
started initializations stays 1. -/
theorem ensureReady_no_fresh_attempt_cex :
    failedInitClient.initStarts = 1 ∧
    failedInitClient.isReady = false ∧
    (ensureReadySync failedInitClient).2 = some 0 ∧
    (ensureReadySync failedInitClient).1.initStarts = 1 ∧
    (ensureReadySync failedInitClient).1.initPromise = some 0 := by decide

/-- **C3** (amended): a failed initialization (credential-fetch failure or
ready-wait timeout) rejects only that attempt and leaves the session
non-ready, but the failed promise stays cached: a later `ensureReady()`
awaits the same failed attempt and starts nothing new; a fresh
initialization attempt requires `loginWith`, which starts exactly one. -/
theorem initFailure_retry_requires_loginWith (s : ClientState) (k : Nat)
    (so : Bool) (uid token u : JStr)
    (h1 : s.isReady = false) (h2 : s.initPromise = some k)
    (h3 : normalizeUid uid = some u) (h4 : u ≠ []) (h5 : token ≠ []) :
    (runInitIM s so false).isReady = false ∧
    (runInitIM s so false).initialized = s.initialized ∧
    (runInitIM s so false).initPromise = s.initPromise ∧
    (ensureReadySync s).2 = some k ∧
    (ensureReadySync s).1.initStarts = s.initStarts ∧
    ∃ s', loginWithStep s uid token = some s' ∧
      s'.initStarts = s.initStarts + 1 ∧
      s'.initPromise = some s.nextInit := by
  refine ⟨?_, ?_, ?_, ?_, ?_, ?_⟩
  · cases so <;> simp [runInitIM, h1]
  · cases so <;> simp [runInitIM]
  · cases so <;> simp [runInitIM]
  · rw [ensureReadySync]
    simp [h1, h2]
  · rw [ensureReadySync]
    simp [h1, h2]
  · have hcond : ¬ (({ s with stUid := some u, stToken := some token
        } : ClientState).initialized = true ∧
        ({ s with stUid := some u, stToken := some token
        } : ClientState).isReady = true ∧
        ({ s with stUid := some u, stToken := some token
        } : ClientState).hasChat = true ∧
        ({ s with stUid := some u, stToken := some token
        } : ClientState).stUid =
          ({ s with stUid := some u, stToken := some token
          } : ClientState).currentUid ∧
        ({ s with stUid := some u, stToken := some token
        } : ClientState).stToken =
          ({ s with stUid := some u, stToken := some token
          } : ClientState).currentToken) := by
      rintro ⟨-, hr, -⟩
      simp [h1] at hr
    have hlw : loginWithStep s uid token =
        some (startInit
          { destroyStep { s with stUid := some u, stToken := some token } true
            with currentUid := some u, currentToken := some token }) := by
      unfold loginWithStep
      rw [h3]
      dsimp only
      rw [if_neg h4, if_neg h5, if_neg hcond]
    refine ⟨_, hlw, ?_, ?_⟩
    · show (destroyStep { s with stUid := some u, stToken := some token }
          true).initStarts + 1 = s.initStarts + 1
      rw [(destroyStep_fields _ _).1]
    · show some ((destroyStep { s with stUid := some u, stToken := some token }
          true).nextInit) = some s.nextInit
      rw [(destroyStep_fields _ _).2.1]

/-- **C3** witness: the amended behaviour instantiated on the concrete
failed-initialization client. -/
theorem initFailure_retry_witness :
    failedInitClient.isReady = false ∧
    failedInitClient.initPromise = some 0 ∧
    normalizeUid ['3'] = some ['3'] ∧
    (['3'] : JStr) ≠ [] ∧ (['t'] : JStr) ≠ [] ∧
    ((runInitIM failedInitClient false false).isReady = false ∧
     (runInitIM failedInitClient false false).initialized =
        failedInitClient.initialized ∧
     (runInitIM failedInitClient false false).initPromise =
        failedInitClient.initPromise ∧
     (ensureReadySync failedInitClient).2 = some 0 ∧
     (ensureReadySync failedInitClient).1.initStarts =
        failedInitClient.initStarts ∧
     ∃ s', loginWithStep failedInitClient ['3'] ['t'] = some s' ∧
       s'.initStarts = failedInitClient.initStarts + 1 ∧
       s'.initPromise = some failedInitClient.nextInit) :=
  ⟨by decide, by decide, by decide, by decide, by decide,
   initFailure_retry_requires_loginWith failedInitClient 0 false ['3'] ['t']
     ['3'] (by decide) (by decide) (by decide) (by decide) (by decide)⟩

/-- **C6**: a (non-throwing) `loginWith` is a pure no-op on the session
lifecycle when the client is already initialized, ready and holding a chat
handle with identical normalized credentials; in every other case it first
destroys the current session — releasing the chat handle (exactly one
release when one was held) and clearing the send queue — and only then
starts exactly one fresh initialization with the new credentials. -/
theorem loginWith_noop_or_destroy_first (s s' : ClientState)
    (uid token : JStr) (h : loginWithStep s uid token = some s') :
    ((s.initialized = true ∧ s.isReady = true ∧ s.hasChat = true ∧
      normalizeUid uid = s.currentUid ∧ some token = s.currentToken) →
      s'.initStarts = s.initStarts ∧ s'.initPromise = s.initPromise ∧
      s'.hasChat = s.hasChat ∧ s'.releasedChats = s.releasedChats ∧
      s'.queuePending = s.queuePending ∧ s'.isReady = true) ∧
    (¬ (s.initialized = true ∧ s.isReady = true ∧ s.hasChat = true ∧
        normalizeUid uid = s.currentUid ∧ some token = s.currentToken) →
      s'.initStarts = s.initStarts + 1 ∧
      s'.initPromise = some s.nextInit ∧
      s'.hasChat = false ∧
      s'.releasedChats = s.releasedChats + (if s.hasChat then 1 else 0) ∧
      (s.hasChat = true → s'.queuePending = 0) ∧
      s'.currentUid = normalizeUid uid ∧
      s'.currentToken = some token) := by
  cases hn : normalizeUid uid with
  | none =>
    unfold loginWithStep at h
    rw [hn] at h
    cases h
  | some u =>
    unfold loginWithStep at h
    rw [hn] at h
    dsimp only at h
    by_cases hu : u = []
    · rw [if_pos hu] at h
      cases h
    rw [if_neg hu] at h
    by_cases ht : token = []
    · rw [if_pos ht] at h
      cases h
    rw [if_neg ht] at h
    split at h
    next hdef =>
      injection h with h
      subst h
      constructor
      · intro _
        exact ⟨rfl, rfl, rfl, rfl, rfl, hdef.2.1⟩
      · intro hnc
        exact absurd hdef hnc
    next hdef =>
      injection h with h
      subst h
      constructor
      · intro hc
        exact absurd hc hdef
      · intro _
        refine ⟨?_, ?_, ?_, ?_, ?_, ?_, ?_⟩
        · show (destroyStep { s with stUid := some u, stToken := some token }
              true).initStarts + 1 = s.initStarts + 1
          rw [(destroyStep_fields _ _).1]
        · show some ((destroyStep
              { s with stUid := some u, stToken := some token }
              true).nextInit) = some s.nextInit
          rw [(destroyStep_fields _ _).2.1]
        · exact (destroyStep_fields
            { s with stUid := some u, stToken := some token } true).2.2.1
        · exact (destroyStep_fields
            { s with stUid := some u, stToken := some token } true).2.2.2.1
        · intro hch
          have hf := (destroyStep_fields
            { s with stUid := some u, stToken := some token } true).2.2.2.2
          show (destroyStep { s with stUid := some u, stToken := some token }
              true).queuePending = 0
          rw [hf]
          show (if s.hasChat then 0 else s.queuePending) = 0
          rw [hch]
          rfl
        · rfl
        · rfl

/-- **C6** witness: `loginWith('3','t')` on a fresh (non-ready) client
destroys nothing (it held no handle) and starts one initialization with the
new credentials. -/
theorem loginWith_witness :
    loginWithStep freshClient ['3'] ['t'] = some lwClient ∧
    (((freshClient.initialized = true ∧ freshClient.isReady = true ∧
       freshClient.hasChat = true ∧
       normalizeUid ['3'] = freshClient.currentUid ∧
       some ['t'] = freshClient.currentToken) →
       lwClient.initStarts = freshClient.initStarts ∧
       lwClient.initPromise = freshClient.initPromise ∧
       lwClient.hasChat = freshClient.hasChat ∧
       lwClient.releasedChats = freshClient.releasedChats ∧
       lwClient.queuePending = freshClient.queuePending ∧
       lwClient.isReady = true) ∧
     (¬ (freshClient.initialized = true ∧ freshClient.isReady = true ∧
         freshClient.hasChat = true ∧
         normalizeUid ['3'] = freshClient.currentUid ∧
         some ['t'] = freshClient.currentToken) →
       lwClient.initStarts = freshClient.initStarts + 1 ∧
       lwClient.initPromise = some freshClient.nextInit ∧
       lwClient.hasChat = false ∧
       lwClient.releasedChats = freshClient.releasedChats +
         (if freshClient.hasChat then 1 else 0) ∧
       (freshClient.hasChat = true → lwClient.queuePending = 0) ∧
       lwClient.currentUid = normalizeUid ['3'] ∧
       lwClient.currentToken = some ['t'])) :=
  ⟨by decide,
   loginWith_noop_or_destroy_first freshClient lwClient ['3'] ['t']
     (by decide)⟩

/-- **C1**: with candidates `[A, B, C]` where the transport accepts delivery
only for `C`, `_doSendToC2C('A')` rejects with a transport failure, yet the
dispatch loop — which awaits `sendToC2C`, whose `.catch` swallows that
rejection — records the single attempt `(A, ok)` and returns success with
recipient `A` after one transport send; with the `_doSendToC2C` rejection
propagated instead, the loop behaves as specified: attempts `A,B,C` in
order, three attempt records, success with recipient `C`. -/
theorem dispatch_fallback_unreachable :
    doSendToC2C true true onlyCTransport ['A'] =
      Except.error SendErr.transportFail ∧
    dispatchLoop (dispatchSendCode onlyCTransport) [['A'], ['B'], ['C']] =
      ([⟨['A'], true⟩], some ['A'], 1) ∧
    dispatchLoop (dispatchSendRaw onlyCTransport) [['A'], ['B'], ['C']] =
      ([⟨['A'], false⟩, ⟨['B'], false⟩, ⟨['C'], true⟩], some ['C'], 3) ∧
    (∀ eo hc tr t, ∃ u, sendToC2C eo hc tr t = Except.ok u) := by
  refine ⟨rfl, by decide, by decide, ?_⟩
  intro eo hc tr t
  rw [sendToC2C]
  cases doSendToC2C eo hc tr t with
  | ok u => exact ⟨u, rfl⟩
  | error e => exact ⟨(), rfl⟩

/-- **C5**: feeding any sequence of queued sends (each given by its own
`_doSendToC2C` outcome) through the promise-chained queue: every task
executes (the queue is never torn down by a failure: the count equals the
sequence length and the chain tail ends fulfilled), but every caller receives
a fulfilled result — a failing send's caller is never rejected, the error is
only logged. -/
theorem sendQueue_survives_and_swallows (rs : List (Except SendErr Unit)) :
    runQueue QueueState.fulfilled rs =
      (QueueState.fulfilled, rs.length, rs.map (fun _ => Except.ok ())) ∧
    runQueue QueueState.fulfilled [Except.error SendErr.transportFail,
        Except.ok (), Except.error SendErr.transportFail] =
      (QueueState.fulfilled, 3, [Except.ok (), Except.ok (), Except.ok ()]) := by
  refine ⟨?_, rfl⟩
  induction rs with
  | nil => rfl
  | cons r t ih =>
    cases r with
    | ok u =>
      cases u
      simp [runQueue, enqueueStep, ih, Nat.add_comm]
    | error e =>
      simp [runQueue, enqueueStep, ih, Nat.add_comm]

/-- **C7**: a `sendCommand` on a connection whose session is not ready is
answered immediately with the not-ready failure reply, and no transport send
is attempted. -/
theorem sendCommand_notReady_fails_fast (w : WsSession)
    (tid gto : Option JStr) (p : Bool) (tr : Option JStr → Bool)
    (h : w.isReady = false) :
    handleSendCommand w tid gto p tr = (CmdReply.notReady, 0) := by
  rw [handleSendCommand, if_pos h]

/-- **C7** witness: a connection that never logged in gets the not-ready
reply with zero transport sends. -/
theorem sendCommand_notReady_witness :
    newWsSession.isReady = false ∧
    handleSendCommand newWsSession none none true onlyCTransport =
      (CmdReply.notReady, 0) :=
  ⟨rfl, sendCommand_notReady_fails_fast newWsSession none none true
    onlyCTransport rfl⟩

/-- **C4** counterexample: on a fully initialized ready client, the
`KICKED_OUT` handler leaves the chat handle live and the destroyed flag
clear — the session is not Destroyed and still holds its transport
handle. -/
theorem kickedOut_not_destroyed_cex :
    readyClient.hasChat = true ∧
    (kickedOutStep readyClient).hasChat = true ∧
    (kickedOutStep readyClient).destroyed = false ∧
    (kickedOutStep readyClient).initialized = true := by decide

/-- **C4** (amended): after `KICKED_OUT` the client is only marked not
ready — the chat handle and destroyed flag are unchanged, so the session is
not Destroyed — the owning connection's WS session is marked not ready, and
every `sendCommand` issued on it before a new login is rejected with the
not-ready failure reply and performs no transport send. -/
theorem kickedOut_marks_not_ready (c : ClientState) (w : WsSession)
    (tid gto : Option JStr) (p : Bool) (tr : Option JStr → Bool) :
    (kickedOutStep c).isReady = false ∧
    (kickedOutStep c).hasChat = c.hasChat ∧
    (kickedOutStep c).destroyed = c.destroyed ∧
    (wsKickedOut w).isReady = false ∧
    handleSendCommand (wsKickedOut w) tid gto p tr =
      (CmdReply.notReady, 0) := by
  refine ⟨rfl, rfl, rfl, rfl, ?_⟩
  have hw : (wsKickedOut w).isReady = false := rfl
  rw [handleSendCommand, if_pos hw]

/-- Every connection surviving a sweep was probed: its `isAlive` flag was
cleared (and it was pinged) by that sweep. -/
theorem sweep_isAlive (l : List Conn) (d : Conn) (hd : d ∈ (sweep l).1) :
    d.isAlive = false := by
  induction l with
  | nil => simp [sweep] at hd
  | cons a t ih =>
    by_cases ha : a.isAlive = false
    · rw [sweep, if_pos ha] at hd
      exact ih hd
    · rw [sweep, if_neg ha] at hd
      rcases List.mem_cons.mp hd with rfl | hd
      · rfl
      · exact ih hd

/-- A tracked connection that failed to answer the previous probe is
terminated by the sweep. -/
theorem sweep_terminates_dead (l : List Conn) (c : Conn)
    (hm : c ∈ l) (hc : c.isAlive = false) : c.cid ∈ (sweep l).2 := by
  induction l with
  | nil => simp at hm
  | cons a t ih =>
    rcases List.mem_cons.mp hm with rfl | hm
    · rw [sweep, if_pos hc]
      exact List.mem_cons_self _ _
    · by_cases ha : a.isAlive = false
      · rw [sweep, if_pos ha]
        exact List.mem_cons_of_mem _ (ih hm)
      · rw [sweep, if_neg ha]
        exact ih hm

/-- A connection that answered the previous probe survives the sweep, with
its `isAlive` flag cleared. -/
theorem sweep_keeps_alive (l : List Conn) (c : Conn)
    (hm : c ∈ l) (hc : c.isAlive = true) :
    ({ c with isAlive := false } : Conn) ∈ (sweep l).1 := by
  induction l with
  | nil => simp at hm
  | cons a t ih =>
    rcases List.mem_cons.mp hm with rfl | hm
    · rw [sweep, if_neg (by rw [hc]; simp)]
      exact List.mem_cons_self _ _
    · by_cases ha : a.isAlive = false
      · rw [sweep, if_pos ha]
        exact ih hm
      · rw [sweep, if_neg ha]
        exact List.mem_cons_of_mem _ (ih hm)

/-- The sweep only removes connections: the surviving ids form a sublist. -/
theorem sweep_cids_sublist (l : List Conn) :
    ((sweep l).1.map Conn.cid).Sublist (l.map Conn.cid) := by
  induction l with
  | nil => exact List.Sublist.refl _
  | cons a t ih =>
    by_cases ha : a.isAlive = false
    · rw [sweep, if_pos ha, List.map_cons]
      exact ih.cons _
    · rw [sweep, if_neg ha, List.map_cons, List.map_cons]
      exact ih.cons₂ _

/-- Under unique ids, a connection terminated by the sweep is gone from the
surviving registry. -/
theorem sweep_removes_dead_cid (l : List Conn) (c : Conn)
    (hnd : (l.map Conn.cid).Nodup) (hm : c ∈ l) (hc : c.isAlive = false) :
    c.cid ∉ (sweep l).1.map Conn.cid := by
  induction l with
  | nil => simp at hm
  | cons a t ih =>
    rw [List.map_cons, List.nodup_cons] at hnd
    rcases List.mem_cons.mp hm with rfl | hm
    · rw [sweep, if_pos hc]
      intro hmem
      exact hnd.1 ((sweep_cids_sublist t).mem hmem)
    · by_cases ha : a.isAlive = false
      · rw [sweep, if_pos ha]
        exact ih hnd.2 hm
      · rw [sweep, if_neg ha, List.map_cons]
        intro hmem
        rcases List.mem_cons.mp hmem with heq | hmem
        · exact hnd.1 (heq ▸ List.mem_map_of_mem Conn.cid hm)
        · exact ih hnd.2 hm hmem

/-- The pong phase changes no ids. -/
theorem pong_cids (l : List Conn) :
    (pongPhase l).map Conn.cid = l.map Conn.cid := by
  unfold pongPhase
  rw [List.map_map]
  congr 1
  funext c
  by_cases hc : c.responsive = true <;> simp [Function.comp, hc]

/-- An unresponsive connection is untouched by the pong phase. -/
theorem pong_keeps_unresponsive (l : List Conn) (c : Conn)
    (hm : c ∈ l) (hr : c.responsive = false) : c ∈ pongPhase l := by
  have h2 := List.mem_map_of_mem
    (fun d => if d.responsive then { d with isAlive := true } else d) hm
  simpa [pongPhase, hr] using h2

/-- **C8**: every heartbeat sweep probes each surviving tracked connection
(clearing its `isAlive` flag); under unique connection ids, a connection
that answers no pings is terminated and removed from the registry within two
heartbeat intervals, and the close handler's `destroy` leaves the reaped
connection's session with no live transport handle. -/
theorem heartbeat_reaps (l : List Conn) (c : Conn)
    (hm : c ∈ l) (hr : c.responsive = false)
    (hnd : (l.map Conn.cid).Nodup) :
    (∀ d ∈ (sweep l).1, d.isAlive = false) ∧
    c.cid ∉ (tick (tick l).1).1.map Conn.cid ∧
    c.cid ∈ (tick l).2 ++ (tick (tick l).1).2 ∧
    (∀ im : ClientState, (destroyStep im false).hasChat = false) := by
  have hnd1 : ((tick l).1.map Conn.cid).Nodup := by
    show ((pongPhase (sweep l).1).map Conn.cid).Nodup
    rw [pong_cids]
    exact hnd.sublist (sweep_cids_sublist l)
  refine ⟨fun d hd => sweep_isAlive l d hd, ?_, ?_, ?_⟩
  · by_cases hca : c.isAlive = false
    · have hnot : c.cid ∉ (sweep l).1.map Conn.cid :=
        sweep_removes_dead_cid l c hnd hm hca
      have hnot1 : c.cid ∉ (tick l).1.map Conn.cid := by
        show c.cid ∉ (pongPhase (sweep l).1).map Conn.cid
        rw [pong_cids]
        exact hnot
      show c.cid ∉ (pongPhase (sweep (tick l).1).1).map Conn.cid
      rw [pong_cids]
      intro hmem
      exact hnot1 ((sweep_cids_sublist (tick l).1).mem hmem)
    · rw [Bool.not_eq_false] at hca
      have hc1 : ({ c with isAlive := false } : Conn) ∈ (tick l).1 :=
        pong_keeps_unresponsive _ _ (sweep_keeps_alive l c hm hca) hr
      have hnot : c.cid ∉ (sweep (tick l).1).1.map Conn.cid :=
        sweep_removes_dead_cid (tick l).1 { c with isAlive := false }
          hnd1 hc1 rfl
      show c.cid ∉ (pongPhase (sweep (tick l).1).1).map Conn.cid
      rw [pong_cids]
      exact hnot
  · by_cases hca : c.isAlive = false
    · exact List.mem_append_left _ (sweep_terminates_dead l c hm hca)
    · rw [Bool.not_eq_false] at hca
      have hc1 : ({ c with isAlive := false } : Conn) ∈ (tick l).1 :=
        pong_keeps_unresponsive _ _ (sweep_keeps_alive l c hm hca) hr
      exact List.mem_append_right _
        (sweep_terminates_dead (tick l).1 { c with isAlive := false } hc1 rfl)
  · intro im
    exact (destroyStep_fields im false).2.2.1

/-- **C8** witness: a single tracked connection that stops answering pings is
probed at the first sweep and reaped at the second. -/
theorem heartbeat_reaps_witness :
    deadConn ∈ [deadConn] ∧ deadConn.responsive = false ∧
    ([deadConn].map Conn.cid).Nodup ∧
    (tick [deadConn]).2 = [] ∧ (tick (tick [deadConn]).1).2 = [1] ∧
    ((∀ d ∈ (sweep [deadConn]).1, d.isAlive = false) ∧
     deadConn.cid ∉ (tick (tick [deadConn]).1).1.map Conn.cid ∧
     deadConn.cid ∈ (tick [deadConn]).2 ++ (tick (tick [deadConn]).1).2 ∧
     (∀ im : ClientState, (destroyStep im false).hasChat = false)) :=
  ⟨by decide, by decide, by decide, by decide, by decide,
   heartbeat_reaps [deadConn] deadConn (by decide) (by decide) (by decide)⟩
